import Mathlib

/-!
Verification of the MScript VLESS-Encryption deployment core
(`VlessEncryption.py`, `BaseClass.py`) against its natural-language
specification.  The Python functions are shallowly embedded as total
Lean functions over `String` / `List Char`; interactive `input()` calls
become explicit lists of input strings, and `sys.exit` / abort paths
become `Option`/sum results.
-/

/-! ### Python string primitives

Models of the Python built-ins used by the source: `str.strip`,
`str.lower`, `str.split('-')`, `int(...)`, `'.'.join`, `filter(None, ...)`,
substring membership (`in`) and `str.split(':', 1)[1]`.
`int(...)` is modelled on decimal ASCII literals: optional surrounding
whitespace, an optional single sign, and digit groups separated by single
underscores (the CPython grammar for `int` on `str`, restricted to ASCII
digits). -/

/-- Whitespace test used to model Python's `str.strip()`. -/
def isPySpace (c : Char) : Bool := c.isWhitespace

/-- Model of Python `str.strip()` on a character list. -/
def pyStripChars (cs : List Char) : List Char :=
  ((cs.dropWhile isPySpace).reverse.dropWhile isPySpace).reverse

/-- Model of Python `str.strip()`. -/
def pyStrip (s : String) : String := String.mk (pyStripChars s.data)

/-- Model of Python `str.lower()` (ASCII letters; the inputs the code
lowercases are `y`/`yes`-style answers). -/
def pyLower (s : String) : String := String.mk (s.data.map Char.toLower)

/-- Numeric value of a digit list (underscores already removed). -/
def digitsVal (cs : List Char) : Nat :=
  cs.foldl (fun n c => 10 * n + (c.toNat - 48)) 0

/-- After an initial digit, Python's integer literal body is digits with
single underscores allowed only between digits. -/
def digitsRest : List Char → Bool
  | [] => true
  | ['_'] => false
  | '_' :: d :: ds => d.isDigit && digitsRest ds
  | c :: cs => c.isDigit && digitsRest cs

/-- Parse an unsigned Python integer literal body (nonempty digits with
embedded single underscores). -/
def pyDigits (cs : List Char) : Option Nat :=
  match cs with
  | [] => none
  | c :: rest =>
    if c.isDigit && digitsRest rest then
      some (digitsVal (cs.filter (fun d => d ≠ '_')))
    else none

/-- Model of Python `int(s)` on a character list: strip whitespace, then
an optional sign followed by a digit body. -/
def pyIntChars (cs : List Char) : Option Int :=
  match pyStripChars cs with
  | '+' :: rest => (pyDigits rest).map (fun n => (n : Int))
  | '-' :: rest => (pyDigits rest).map (fun n => -(n : Int))
  | rest => (pyDigits rest).map (fun n => (n : Int))

/-- Model of Python `s.split('-')`: split at every hyphen, keeping empty
pieces (`''.split('-') == ['']`). -/
def splitDash : List Char → List (List Char)
  | [] => [[]]
  | c :: cs =>
    if c = '-' then [] :: splitDash cs
    else
      match splitDash cs with
      | [] => [[c]]
      | p :: ps => (c :: p) :: ps

/-- Model of Python `filter(None, parts)` on strings: keep the truthy
(nonempty) ones. -/
def pyFilterTruthy (l : List String) : List String :=
  l.filter (fun s => s ≠ "")

/-- Model of Python `'.'.join(parts)`. -/
def pyJoinDot (l : List String) : String := String.intercalate "." l

/-- Does `pat` occur as a prefix of `s`?  Helper for substring search. -/
def leadsWith : List Char → List Char → Bool
  | [], _ => true
  | _ :: _, [] => false
  | a :: as, b :: bs => a == b && leadsWith as bs

/-- Model of Python `pat in line` (substring membership). -/
def containsSub (pat : List Char) : List Char → Bool
  | [] => leadsWith pat []
  | c :: rest => leadsWith pat (c :: rest) || containsSub pat rest

/-- Model of Python `line.split(':', 1)[1]`: everything after the first
colon.  Only used on lines known to contain a colon (the matched label
ends in one); on a colonless line the model returns `[]`. -/
def afterFirstColon : List Char → List Char
  | [] => []
  | c :: rest => if c = ':' then rest else afterFirstColon rest

/-! ### Padding triplet validator

Embedding of `VlessEncryptionInstaller.validate_padding_format`
(`VlessEncryption.py` lines 22-53).  The function returns the pair
`(ok, message)` exactly as the source does; the three `int(...)` calls
are modelled by `pyIntChars`, and the `ValueError` handler by the
all-parses-succeed match.  The source's generic `except Exception`
branch is unreachable in this model (splitting and comparison raise
nothing). -/

/-- Message for a field count different from three. -/
def fmtMsg : String := "格式错误,应为 probability-min-max"

/-- Message for a field that does not parse as an integer. -/
def intMsg : String := "必须为整数"

/-- Message for a probability outside 0-100. -/
def probMsg : String := "概率必须在 0-100 之间"

/-- Message for a negative minimum. -/
def minMsg : String := "最小值不能小于 0"

/-- Message for a maximum smaller than the minimum. -/
def maxMsg : String := "最大值不能小于最小值"

/-- Embedding of `validate_padding_format` (VlessEncryption.py 22-53). -/
def validate_padding_format (s : String) : Bool × String :=
  match splitDash s.data with
  | [a, b, c] =>
    match pyIntChars a, pyIntChars b, pyIntChars c with
    | some p, some mi, some ma =>
      if p < 0 ∨ 100 < p then (false, probMsg)
      else if mi < 0 then (false, minMsg)
      else if ma < mi then (false, maxMsg)
      else (true, "")
    | _, _, _ => (false, intMsg)
  | _ => (false, fmtMsg)

/-- The parsed triplet of a padding string, when it has exactly three
hyphen-separated fields that all parse as Python integers. -/
def parseTriplet (s : String) : Option (Int × Int × Int) :=
  match splitDash s.data with
  | [a, b, c] =>
    match pyIntChars a, pyIntChars b, pyIntChars c with
    | some p, some mi, some ma => some (p, mi, ma)
    | _, _, _ => none
  | _ => none

/-- The probability field of a padding string's parsed triplet. -/
def probOf (s : String) : Option Int := (parseTriplet s).map (fun t => t.1)

/-- The minimum field of a padding string's parsed triplet. -/
def minOf (s : String) : Option Int := (parseTriplet s).map (fun t => t.2.1)

/-- Error taxonomy of the spec (§7), as read off the validator's
messages: the two parse messages are `FormatError`-class, the three
bound messages are `RangeError`-class. -/
inductive VKind where
  | ok
  | formatError
  | rangeError
deriving DecidableEq, Repr

/-- Classify a validator verdict into the spec's error taxonomy. -/
def verdictKind (r : Bool × String) : Option VKind :=
  if r.1 then some .ok
  else if r.2 = fmtMsg ∨ r.2 = intMsg then some .formatError
  else if r.2 = probMsg ∨ r.2 = minMsg ∨ r.2 = maxMsg then some .rangeError
  else none

/-! ### Interactive padding-chain builder

Embedding of `VlessEncryptionInstaller.configure_padding`
(`VlessEncryption.py` lines 55-158).  The nested `while`/`input` loops
become a step function over an explicit phase, consuming one prompt
answer per step.  A block's kind is the branch that appended it (the
source tracks the same information in `last_block_type`). -/

/-- Kind of a chain block: appended as a padding block or a delay block. -/
inductive BKind where
  | padding
  | delay
deriving DecidableEq, Repr

/-- One built block: its kind and its (stripped) `probability-min-max` text. -/
abbrev Block := BKind × String

/-- Phase of `configure_padding`: which prompt the next input answers. -/
inductive BPhase where
  | first
  | choiceAfterPadding
  | choiceAfterDelay
  | delayBlock
  | paddingBlock
  | done
deriving DecidableEq, Repr

/-- Builder state: current phase and blocks appended so far. -/
structure BState where
  phase : BPhase
  blocks : List Block
deriving DecidableEq, Repr

/-- Shorthand for the validator's boolean verdict. -/
def validB (s : String) : Bool := (validate_padding_format s).1

/-- Does the (already stripped) first padding start with the literal
prefix `100-`?  This is the source's `padding1.startswith("100-")`. -/
def begins100 (s : String) : Bool :=
  match s.data with
  | c1 :: c2 :: c3 :: c4 :: _ => c1 == '1' && c2 == '0' && c3 == '0' && c4 == '-'
  | _ => false

/-- The source's `int(parts[1]) >= 35` test on the first padding (only
evaluated after the validator accepted, so the field parses). -/
def minOk35 (s : String) : Bool :=
  match splitDash s.data with
  | [_, b, _] =>
    match pyIntChars b with
    | some mi => 35 ≤ mi
    | none => false
  | _ => false

/-- Acceptance test of the first-padding loop (VlessEncryption.py 68-94)
on a raw prompt answer: strip, nonempty, validator, `100-` prefix,
minimum at least 35 — in the source's order. -/
def first_padding_ok (raw : String) : Bool :=
  let t := pyStrip raw
  t ≠ "" && validB t && begins100 t && minOk35 t

/-- Acceptance test of the delay / later-padding sub-loops
(VlessEncryption.py 111-126 and 139-154): strip, nonempty, validator. -/
def block_ok (raw : String) : Bool :=
  let t := pyStrip raw
  t ≠ "" && validB t

/-- One prompt-answer step of `configure_padding`. -/
def builderStep (st : BState) (raw : String) : BState :=
  match st.phase with
  | .first =>
    if first_padding_ok raw then
      ⟨.choiceAfterPadding, st.blocks ++ [(.padding, pyStrip raw)]⟩
    else st
  | .choiceAfterPadding =>
    if pyStrip raw = "2" then ⟨.done, st.blocks⟩
    else if pyStrip raw = "1" then ⟨.delayBlock, st.blocks⟩
    else st
  | .delayBlock =>
    if block_ok raw then
      ⟨.choiceAfterDelay, st.blocks ++ [(.delay, pyStrip raw)]⟩
    else st
  | .choiceAfterDelay =>
    if pyStrip raw = "2" then ⟨.done, st.blocks⟩
    else if pyStrip raw = "1" then ⟨.paddingBlock, st.blocks⟩
    else st
  | .paddingBlock =>
    if block_ok raw then
      ⟨.choiceAfterPadding, st.blocks ++ [(.padding, pyStrip raw)]⟩
    else st
  | .done => st

/-- Run the builder on a list of prompt answers. -/
def runBuilder (inputs : List String) : BState :=
  inputs.foldl builderStep ⟨.first, []⟩

/-- Embedding of `configure_padding`: the chain emitted when the input
list drives the builder to completion (`none` when the inputs run out
before the user finishes — the source would still be prompting). -/
def configure_padding (inputs : List String) : Option (List Block) :=
  let st := runBuilder inputs
  if st.phase = .done then some st.blocks else none

/-- Serialization of a built chain: the source's
`'.'.join(padding_blocks)` (VlessEncryption.py 158). -/
def serializeChain (blocks : List Block) : String :=
  String.intercalate "." (blocks.map Prod.snd)

/-- Kinds of a chain, in order. -/
def kindsOf (blocks : List Block) : List BKind := blocks.map Prod.fst

/-- No two consecutive kinds are equal. -/
def altKinds : List BKind → Bool
  | [] => true
  | [_] => true
  | a :: b :: r => decide (a ≠ b) && altKinds (b :: r)

/-! ### Key-pair output parsing

Embedding of the parsing halves of `generate_x25519_key`
(VlessEncryption.py 160-196) and `generate_mlkem768_key`
(VlessEncryption.py 198-234).  The subprocess is external; its stdout
lines are the model's input.  Both functions run the same loop with
different labels, so the model is one generic scanner:
for each line, if the first label occurs in it (substring test) the
first slot is overwritten with the text after the line's first colon,
stripped; otherwise, if the second label occurs, the second slot is
overwritten likewise (`elif`).  A missing or empty value makes the
source raise and `sys.exit(1)`, modelled as `none`. -/

/-- One line of the label-scan loop: the `if`/`elif` of the source. -/
def scanStep (labA labB : List Char)
    (st : Option (List Char) × Option (List Char)) (line : List Char) :
    Option (List Char) × Option (List Char) :=
  if containsSub labA line then
    (some (pyStripChars (afterFirstColon line)), st.2)
  else if containsSub labB line then
    (st.1, some (pyStripChars (afterFirstColon line)))
  else st

/-- The label-scan loop state: the two slots (`None` before first hit). -/
def scanPair (labA labB : List Char) (lines : List (List Char)) :
    Option (List Char) × Option (List Char) :=
  lines.foldl (scanStep labA labB) (none, none)

/-- Full parse: both slots must be filled and nonempty
(the source's `if not private_key or not password: raise`). -/
def parsePair (labA labB : List Char) (lines : List (List Char)) :
    Option (List Char × List Char) :=
  match scanPair labA labB lines with
  | (some a, some b) => if a ≠ [] ∧ b ≠ [] then some (a, b) else none
  | _ => none

/-- Parsing half of `generate_x25519_key`. -/
def parseX25519 (lines : List (List Char)) : Option (List Char × List Char) :=
  parsePair "PrivateKey:".data "Password:".data lines

/-- Parsing half of `generate_mlkem768_key`. -/
def parseMLKEM768 (lines : List (List Char)) : Option (List Char × List Char) :=
  parsePair "Seed:".data "Client:".data lines

/-- The value the spec's "last matching line" reading would retain for a
label: the text after the first colon of the last line containing the
label. -/
def lastValueFor (lab : List Char) (lines : List (List Char)) :
    Option (List Char) :=
  ((lines.filter (fun l => containsSub lab l)).getLast?).map
    (fun l => pyStripChars (afterFirstColon l))

/-! ### Encryption-string composer and deployment record

Embedding of the composition tail of `get_deployment_config`
(VlessEncryption.py 339-363 and 383-396): the two dot-joined strings
with empty fields dropped by `filter(None, ...)`, and the returned
configuration record. -/

/-- Leading tag of both composed strings. -/
def hybridTag : String := "mlkem768x25519plus"

/-- The six server-side fields, in the source's order
(VlessEncryption.py 339-346). -/
def decryptionParts (mode tt pad priv seed : String) : List String :=
  pyFilterTruthy [hybridTag, mode, tt, pad, priv, seed]

/-- Server-side composed string (`decryption_str`,
VlessEncryption.py 349). -/
def decryption_str (mode tt pad priv seed : String) : String :=
  pyJoinDot (decryptionParts mode tt pad priv seed)

/-- The six client-side fields, in the source's order
(VlessEncryption.py 353-360). -/
def encryptionParts (mode rtt pad pwd ck : String) : List String :=
  pyFilterTruthy [hybridTag, mode, rtt, pad, pwd, ck]

/-- Client-side composed string (`encryption_str`,
VlessEncryption.py 363). -/
def encryption_str (mode rtt pad pwd ck : String) : String :=
  pyJoinDot (encryptionParts mode rtt pad pwd ck)

/-- The common shape of both composed strings: only the third field and
the two key fields vary between the server and client sides. -/
def composeWith (mode pad third key1 key2 : String) : String :=
  pyJoinDot (pyFilterTruthy [hybridTag, mode, third, pad, key1, key2])

/-- The record returned by `get_deployment_config`
(VlessEncryption.py 383-396). -/
structure DeployConfig where
  encryption_mode : String
  rtt_mode : String
  ticket_time : String
  padding_config : String
  x25519_private : String
  x25519_password : String
  mlkem768_seed : String
  mlkem768_client : String
  decryption_string : String
  encryption_string : String
  port : Int
  uuid : String
deriving DecidableEq, Repr

/-- Build the deployment record from the collected inputs and generated
keys, deriving both composed strings exactly as the source does. -/
def mkDeploymentConfig (mode tt rtt pad xpriv xpass mseed mclient : String)
    (port : Int) (uuid : String) : DeployConfig :=
  { encryption_mode := mode
    rtt_mode := rtt
    ticket_time := tt
    padding_config := pad
    x25519_private := xpriv
    x25519_password := xpass
    mlkem768_seed := mseed
    mlkem768_client := mclient
    decryption_string := decryption_str mode tt pad xpriv mseed
    encryption_string := encryption_str mode rtt pad xpass mclient
    port := port
    uuid := uuid }

/-- The default padding chain (VlessEncryption.py 321). -/
def defaultPadding : String := "100-111-1111.75-0-111.50-0-3333"

/-! ### Final confirmation and config emission

Embedding of the confirmation prompt (VlessEncryption.py 378-381) and
of `generate_config` (VlessEncryption.py 398-432).  A non-affirmative
answer runs `sys.exit(1)`: the record is never returned and
`generate_config` never runs, modelled by `none`. -/

/-- Is a confirmation answer affirmative?  The source's
`input().strip().lower() in ['y', 'yes']`. -/
def affirmative (s : String) : Bool :=
  pyLower (pyStrip s) = "y" || pyLower (pyStrip s) = "yes"

/-- Outcome of the confirmation prompt: the record survives only an
affirmative answer; otherwise the installation aborts (`sys.exit(1)`). -/
def confirmStep (cfg : DeployConfig) (answer : String) : Option DeployConfig :=
  if affirmative answer then some cfg else none

/-- The single listener entry written by `generate_config`
(VlessEncryption.py 405-421). -/
structure ListenerConfig where
  name : String
  listenerType : String
  port : Int
  listen : String
  username : String
  uuid : String
  decryption : String
deriving DecidableEq, Repr

/-- Embedding of `generate_config`'s rendered record. -/
def generate_config (cfg : DeployConfig) : ListenerConfig :=
  { name := "vless-encryption-in-1"
    listenerType := "vless"
    port := cfg.port
    listen := "0.0.0.0"
    username := "user1"
    uuid := cfg.uuid
    decryption := cfg.decryption_string }

/-- The configuration file contents produced after the confirmation
prompt: written only when the answer was affirmative. -/
def writtenConfig (cfg : DeployConfig) (answer : String) :
    Option ListenerConfig :=
  (confirmStep cfg answer).map generate_config

/-! ### Port selection

Embedding of `MihomoBase.get_port_input` (BaseClass.py 149-168) and
`MihomoBase.random_free_port` (BaseClass.py 35-49).  The random scan is
modelled on an explicit list of `randint(20000, 60000)` draws and a
free-port oracle; a draw whose `/proc` check raises is simply not free
(`except: continue`). -/

/-- Embedding of `random_free_port`: first free draw, `none` when the
draw list is exhausted (the source would keep looping). -/
def random_free_port (isFree : Int → Bool) : List Int → Option Int
  | [] => none
  | d :: ds => if isFree d then some d else random_free_port isFree ds

/-- Embedding of `get_port_input`: the user's value when it parses into
[1, 65535], otherwise (blank, unparsable, out of range) the random
scan. -/
def get_port_input (inp : String) (isFree : Int → Bool) (draws : List Int) :
    Option Int :=
  let t := pyStrip inp
  if t ≠ "" then
    match pyIntChars t.data with
    | some p =>
      if p < 1 ∨ 65535 < p then random_free_port isFree draws else some p
    | none => random_free_port isFree draws
  else random_free_port isFree draws

/-! ### Builder invariant predicates -/

/-- Shape invariant of a partially built chain: starts with a padding
kind, strictly alternates, and currently ends with kind `k`. -/
def chainShape (ks : List BKind) (k : BKind) : Prop :=
  ks.head? = some BKind.padding ∧ altKinds ks = true ∧ ks.getLast? = some k

/-- Invariant tying each builder phase to the kinds of the blocks built
so far. -/
def builderInv (st : BState) : Prop :=
  match st.phase with
  | .first => st.blocks = []
  | .choiceAfterPadding => chainShape (kindsOf st.blocks) .padding
  | .delayBlock => chainShape (kindsOf st.blocks) .padding
  | .choiceAfterDelay => chainShape (kindsOf st.blocks) .delay
  | .paddingBlock => chainShape (kindsOf st.blocks) .delay
  | .done => (kindsOf st.blocks).head? = some BKind.padding
      ∧ altKinds (kindsOf st.blocks) = true

/-! ### Helper lemmas about the composer -/

/-- Filtering with six nonempty fields keeps all of them. -/
theorem pyFilterTruthy_six_ne (a b c d e f : String)
    (ha : a ≠ "") (hb : b ≠ "") (hc : c ≠ "") (hd : d ≠ "")
    (he : e ≠ "") (hf : f ≠ "") :
    pyFilterTruthy [a, b, c, d, e, f] = [a, b, c, d, e, f] := by
  simp [pyFilterTruthy, ha, hb, hc, hd, he, hf]

/-- Dot-join of six strings, written out. -/
theorem pyJoinDot_six (a b c d e f : String) :
    pyJoinDot [a, b, c, d, e, f] =
      a ++ "." ++ b ++ "." ++ c ++ "." ++ d ++ "." ++ e ++ "." ++ f := by
  simp [pyJoinDot, String.intercalate, String.intercalate.go]

/-- Dot-join of five strings, written out. -/
theorem pyJoinDot_five (a b c d e : String) :
    pyJoinDot [a, b, c, d, e] =
      a ++ "." ++ b ++ "." ++ c ++ "." ++ d ++ "." ++ e := by
  simp [pyJoinDot, String.intercalate, String.intercalate.go]

/-- The leading tag is nonempty. -/
theorem hybridTag_ne : hybridTag ≠ "" := by decide

/-- Server string with all fields nonempty: all six fields appear in
order. -/
theorem decryption_str_all_ne (mode tt pad priv seed : String)
    (hm : mode ≠ "") (ht : tt ≠ "") (hp : pad ≠ "")
    (hk : priv ≠ "") (hs : seed ≠ "") :
    decryption_str mode tt pad priv seed =
      hybridTag ++ "." ++ mode ++ "." ++ tt ++ "." ++ pad ++ "." ++
        priv ++ "." ++ seed := by
  rw [decryption_str, decryptionParts,
    pyFilterTruthy_six_ne _ _ _ _ _ _ hybridTag_ne hm ht hp hk hs,
    pyJoinDot_six]

/-- Client string with all fields nonempty: all six fields appear in
order. -/
theorem encryption_str_all_ne (mode rtt pad pwd ck : String)
    (hm : mode ≠ "") (hr : rtt ≠ "") (hp : pad ≠ "")
    (hk : pwd ≠ "") (hc : ck ≠ "") :
    encryption_str mode rtt pad pwd ck =
      hybridTag ++ "." ++ mode ++ "." ++ rtt ++ "." ++ pad ++ "." ++
        pwd ++ "." ++ ck := by
  rw [encryption_str, encryptionParts,
    pyFilterTruthy_six_ne _ _ _ _ _ _ hybridTag_ne hm hr hp hk hc,
    pyJoinDot_six]

/-- Server string with an empty ticket time: the field vanishes, leaving
five dot-joined fields and no empty segment. -/
theorem decryption_str_empty_ticket (mode pad priv seed : String)
    (hm : mode ≠ "") (hp : pad ≠ "") (hk : priv ≠ "") (hs : seed ≠ "") :
    decryption_str mode "" pad priv seed =
      hybridTag ++ "." ++ mode ++ "." ++ pad ++ "." ++ priv ++ "." ++ seed := by
  have h : pyFilterTruthy [hybridTag, mode, "", pad, priv, seed] =
      [hybridTag, mode, pad, priv, seed] := by
    simp [pyFilterTruthy, hybridTag_ne, hm, hp, hk, hs]
  rw [decryption_str, decryptionParts, h, pyJoinDot_five]

/-! ### Claim C1 -/

/-- C1 (counterexample to the claim as stated): with mode `xorpub`,
ticketTime `0s`, rttMode `1rtt`, the default padding chain, port 443,
uuid `abc-123` and key material `<privkey>` / `<seed>`, the composed
server-side decryption string is NOT the claimed literal
`mlkem768x25519plus.xorpub.100-111-1111.75-0-111.50-0-3333.<privkey>.<seed>`:
that literal omits the non-empty ticketTime segment `0s`. -/
theorem scenario1_literal_counterexample :
    ¬ ((mkDeploymentConfig "xorpub" "0s" "1rtt" defaultPadding
          "<privkey>" "<password>" "<seed>" "<clientkey>" 443 "abc-123").decryption_string
        = "mlkem768x25519plus.xorpub.100-111-1111.75-0-111.50-0-3333.<privkey>.<seed>") := by
  decide

/-- C1 (amended): for deployment inputs mode=xorpub, ticketTime `0s`,
rttMode `1rtt`, the default padding chain, port 443, uuid `abc-123`, and
key material `<privkey>`/`<seed>` (server) and `<password>`/`<clientkey>`
(client), the composed server-side decryption string equals
`mlkem768x25519plus.xorpub.0s.100-111-1111.75-0-111.50-0-3333.<privkey>.<seed>`
(the non-empty ticketTime `0s` is its third segment), and the
client-side encryption string mirrors it with `1rtt` and the client-side
key fields in the respective places. -/
theorem scenario1_deployment_strings :
    (mkDeploymentConfig "xorpub" "0s" "1rtt" defaultPadding
        "<privkey>" "<password>" "<seed>" "<clientkey>" 443 "abc-123").decryption_string
      = "mlkem768x25519plus.xorpub.0s.100-111-1111.75-0-111.50-0-3333.<privkey>.<seed>"
    ∧ (mkDeploymentConfig "xorpub" "0s" "1rtt" defaultPadding
        "<privkey>" "<password>" "<seed>" "<clientkey>" 443 "abc-123").encryption_string
      = "mlkem768x25519plus.xorpub.1rtt.100-111-1111.75-0-111.50-0-3333.<password>.<clientkey>" := by
  constructor <;> decide

/-! ### Claim C2 -/

/-- C2: the composed server string is the dot-join, in fixed field
order, of the tag, mode, ticketTime, padding chain, X25519 private key
and ML-KEM-768 seed (client side: rttMode, password, client key in the
respective positions); a field equal to the empty string is dropped
entirely, so an empty ticketTime yields one fewer field in the join
rather than an empty segment between two dots. -/
theorem compose_fixed_order_drops_empty :
    (∀ mode tt pad priv seed : String,
      mode ≠ "" → tt ≠ "" → pad ≠ "" → priv ≠ "" → seed ≠ "" →
      decryption_str mode tt pad priv seed =
        hybridTag ++ "." ++ mode ++ "." ++ tt ++ "." ++ pad ++ "." ++
          priv ++ "." ++ seed)
    ∧ (∀ mode rtt pad pwd ck : String,
      mode ≠ "" → rtt ≠ "" → pad ≠ "" → pwd ≠ "" → ck ≠ "" →
      encryption_str mode rtt pad pwd ck =
        hybridTag ++ "." ++ mode ++ "." ++ rtt ++ "." ++ pad ++ "." ++
          pwd ++ "." ++ ck)
    ∧ (∀ mode pad priv seed : String,
      mode ≠ "" → pad ≠ "" → priv ≠ "" → seed ≠ "" →
      decryption_str mode "" pad priv seed =
        hybridTag ++ "." ++ mode ++ "." ++ pad ++ "." ++ priv ++ "." ++ seed)
    ∧ (∀ mode tt pad priv seed : String, tt ≠ "" →
      (decryptionParts mode tt pad priv seed).length =
        (decryptionParts mode "" pad priv seed).length + 1) := by
  refine ⟨fun mode tt pad priv seed hm ht hp hk hs =>
      decryption_str_all_ne mode tt pad priv seed hm ht hp hk hs,
    fun mode rtt pad pwd ck hm hr hp hk hc =>
      encryption_str_all_ne mode rtt pad pwd ck hm hr hp hk hc,
    fun mode pad priv seed hm hp hk hs =>
      decryption_str_empty_ticket mode pad priv seed hm hp hk hs,
    fun mode tt pad priv seed ht => ?_⟩
  have h1 : pyFilterTruthy [hybridTag, mode, tt, pad, priv, seed]
      = pyFilterTruthy [hybridTag, mode] ++ tt :: pyFilterTruthy [pad, priv, seed] := by
    show List.filter _ ([hybridTag, mode] ++ tt :: [pad, priv, seed]) = _
    rw [List.filter_append, List.filter_cons]
    simp [ht, pyFilterTruthy, List.filter_cons, hybridTag_ne]
  have h2 : pyFilterTruthy [hybridTag, mode, "", pad, priv, seed]
      = pyFilterTruthy [hybridTag, mode] ++ pyFilterTruthy [pad, priv, seed] := by
    show List.filter _ ([hybridTag, mode] ++ "" :: [pad, priv, seed]) = _
    rw [List.filter_append, List.filter_cons]
    simp [pyFilterTruthy, List.filter_cons, hybridTag_ne]
  rw [decryptionParts, decryptionParts, h1, h2]
  simp only [List.length_append, List.length_cons]
  omega

/-- C2 witness: the fixed-order join and the empty-ticket elision,
evaluated at concrete fields. -/
theorem compose_fixed_order_drops_empty_witness :
    decryption_str "xorpub" "0s" "100-111-1111" "PK" "SD" =
      hybridTag ++ "." ++ "xorpub" ++ "." ++ "0s" ++ "." ++ "100-111-1111" ++
        "." ++ "PK" ++ "." ++ "SD"
    ∧ decryption_str "xorpub" "" "100-111-1111" "PK" "SD" =
      hybridTag ++ "." ++ "xorpub" ++ "." ++ "100-111-1111" ++ "." ++
        "PK" ++ "." ++ "SD" :=
  ⟨compose_fixed_order_drops_empty.1 "xorpub" "0s" "100-111-1111" "PK" "SD"
      (by decide) (by decide) (by decide) (by decide) (by decide),
    compose_fixed_order_drops_empty.2.2.1 "xorpub" "100-111-1111" "PK" "SD"
      (by decide) (by decide) (by decide) (by decide)⟩

/-! ### Claim C6 -/

/-- C6: for fixed negotiation and key material the server-side and
client-side composed strings are the same function of (third field,
key field 1, key field 2) — server: ticketTime, private key, seed;
client: rttMode, password, client key — and with all fields nonempty
both strings carry the identical leading tag, mode segment and
padding-chain segments, differing only in the third field and the two
key fields. -/
theorem compose_sides_share_tag_mode_padding :
    ∀ mode tt rtt pad priv seed pwd ck : String,
      decryption_str mode tt pad priv seed = composeWith mode pad tt priv seed
      ∧ encryption_str mode rtt pad pwd ck = composeWith mode pad rtt pwd ck
      ∧ (mode ≠ "" → pad ≠ "" → tt ≠ "" → rtt ≠ "" → priv ≠ "" →
          seed ≠ "" → pwd ≠ "" → ck ≠ "" →
          decryption_str mode tt pad priv seed =
            hybridTag ++ "." ++ mode ++ "." ++ tt ++ "." ++ pad ++ "." ++
              priv ++ "." ++ seed
          ∧ encryption_str mode rtt pad pwd ck =
            hybridTag ++ "." ++ mode ++ "." ++ rtt ++ "." ++ pad ++ "." ++
              pwd ++ "." ++ ck) := by
  intro mode tt rtt pad priv seed pwd ck
  exact ⟨rfl, rfl, fun hm hp ht hr hk hs hw hc =>
    ⟨decryption_str_all_ne mode tt pad priv seed hm ht hp hk hs,
      encryption_str_all_ne mode rtt pad pwd ck hm hr hp hw hc⟩⟩

/-- C6 witness: both composed strings at concrete fields, sharing tag,
mode and padding segments. -/
theorem compose_sides_share_tag_mode_padding_witness :
    decryption_str "xorpub" "0s" "100-111-1111" "PK" "SD" =
      composeWith "xorpub" "100-111-1111" "0s" "PK" "SD"
    ∧ decryption_str "xorpub" "0s" "100-111-1111" "PK" "SD" =
      hybridTag ++ "." ++ "xorpub" ++ "." ++ "0s" ++ "." ++ "100-111-1111" ++
        "." ++ "PK" ++ "." ++ "SD"
    ∧ encryption_str "xorpub" "1rtt" "100-111-1111" "PW" "CK" =
      hybridTag ++ "." ++ "xorpub" ++ "." ++ "1rtt" ++ "." ++ "100-111-1111" ++
        "." ++ "PW" ++ "." ++ "CK" :=
  ⟨(compose_sides_share_tag_mode_padding "xorpub" "0s" "1rtt" "100-111-1111"
      "PK" "SD" "PW" "CK").1,
    ((compose_sides_share_tag_mode_padding "xorpub" "0s" "1rtt" "100-111-1111"
      "PK" "SD" "PW" "CK").2.2 (by decide) (by decide) (by decide) (by decide)
      (by decide) (by decide) (by decide) (by decide)).1,
    ((compose_sides_share_tag_mode_padding "xorpub" "0s" "1rtt" "100-111-1111"
      "PK" "SD" "PW" "CK").2.2 (by decide) (by decide) (by decide) (by decide)
      (by decide) (by decide) (by decide) (by decide)).2⟩

/-! ### Helper lemmas about the validator -/

/-- When the triplet parses, the validator verdict is determined by the
three range checks, in the source's order. -/
theorem validate_of_parse_some (s : String) (p mi ma : Int)
    (h : parseTriplet s = some (p, mi, ma)) :
    validate_padding_format s =
      if p < 0 ∨ 100 < p then (false, probMsg)
      else if mi < 0 then (false, minMsg)
      else if ma < mi then (false, maxMsg)
      else (true, "") := by
  rcases hsp : splitDash s.data with _ | ⟨a, _ | ⟨b, _ | ⟨c, _ | ⟨d, l⟩⟩⟩⟩
  · simp only [parseTriplet, hsp] at h
    exact Option.noConfusion h
  · simp only [parseTriplet, hsp] at h
    exact Option.noConfusion h
  · simp only [parseTriplet, hsp] at h
    exact Option.noConfusion h
  · simp only [parseTriplet, hsp] at h
    simp only [validate_padding_format, hsp]
    rcases ha : pyIntChars a with _ | p' <;> rcases hb : pyIntChars b with _ | mi' <;>
      rcases hc : pyIntChars c with _ | ma' <;>
      simp only [ha, hb, hc, Option.some.injEq, Prod.mk.injEq] at h ⊢ <;>
      try exact Option.noConfusion h
    obtain ⟨rfl, rfl, rfl⟩ := h
    rfl
  · simp only [parseTriplet, hsp] at h
    exact Option.noConfusion h

/-- When the triplet does not parse, the validator rejects with one of
the two parse messages. -/
theorem validate_of_parse_none (s : String) (h : parseTriplet s = none) :
    validate_padding_format s = (false, fmtMsg)
    ∨ validate_padding_format s = (false, intMsg) := by
  rcases hsp : splitDash s.data with _ | ⟨a, _ | ⟨b, _ | ⟨c, _ | ⟨d, l⟩⟩⟩⟩
  · simp [validate_padding_format, hsp]
  · simp [validate_padding_format, hsp]
  · simp [validate_padding_format, hsp]
  · simp only [parseTriplet, hsp] at h
    simp only [validate_padding_format, hsp]
    rcases ha : pyIntChars a with _ | p' <;> rcases hb : pyIntChars b with _ | mi' <;>
      rcases hc : pyIntChars c with _ | ma' <;>
      simp only [ha, hb, hc] at h ⊢ <;>
      first
        | exact Or.inr trivial
        | exact Or.inr rfl
        | exact Option.noConfusion h
  · simp [validate_padding_format, hsp]

/-- Acceptance characterisation: the validator accepts exactly the
parseable triplets within all three bounds. -/
theorem validB_iff (s : String) :
    validB s = true ↔
      ∃ p mi ma : Int, parseTriplet s = some (p, mi, ma) ∧
        0 ≤ p ∧ p ≤ 100 ∧ 0 ≤ mi ∧ mi ≤ ma := by
  constructor
  · intro h
    rcases hp : parseTriplet s with _ | ⟨⟨p, mi, ma⟩⟩
    · rcases validate_of_parse_none s hp with hv | hv <;>
        simp [validB, hv] at h
    · refine ⟨p, mi, ma, rfl, ?_⟩
      have hv := validate_of_parse_some s p mi ma hp
      simp only [validB, hv] at h
      split_ifs at h with h1 h2 h3
      omega
  · rintro ⟨p, mi, ma, hp, h1, h2, h3, h4⟩
    have hv := validate_of_parse_some s p mi ma hp
    simp only [validB, hv]
    split_ifs with g1 g2 g3 <;> first | omega | rfl

/-! ### Claim C5 -/

/-- C5: the validator accepts exactly those strings whose three
hyphen-separated fields parse as integers with `0 ≤ p ≤ 100` and
`0 ≤ mi ≤ ma` (the parsed candidate is the triplet); a field-count or
integer-parse failure is rejected with a `FormatError`-class message,
and a probability out of `[0, 100]`, a negative minimum, or a maximum
below the minimum is rejected with a `RangeError`-class message. -/
theorem validator_accept_and_error_kinds :
    ∀ s : String,
      ((validate_padding_format s).1 = true ↔
        ∃ p mi ma : Int, parseTriplet s = some (p, mi, ma) ∧
          0 ≤ p ∧ p ≤ 100 ∧ 0 ≤ mi ∧ mi ≤ ma)
      ∧ (parseTriplet s = none →
          verdictKind (validate_padding_format s) = some .formatError)
      ∧ (∀ p mi ma : Int, parseTriplet s = some (p, mi, ma) →
          p < 0 ∨ 100 < p →
          verdictKind (validate_padding_format s) = some .rangeError)
      ∧ (∀ p mi ma : Int, parseTriplet s = some (p, mi, ma) →
          0 ≤ p → p ≤ 100 → mi < 0 →
          verdictKind (validate_padding_format s) = some .rangeError)
      ∧ (∀ p mi ma : Int, parseTriplet s = some (p, mi, ma) →
          0 ≤ p → p ≤ 100 → 0 ≤ mi → ma < mi →
          verdictKind (validate_padding_format s) = some .rangeError) := by
  intro s
  refine ⟨validB_iff s, ?_, ?_, ?_, ?_⟩
  · intro hn
    rcases validate_of_parse_none s hn with hv | hv <;> rw [hv] <;> decide
  · intro p mi ma hp hbad
    rw [validate_of_parse_some s p mi ma hp, if_pos hbad]
    decide
  · intro p mi ma hp h1 h2 hmi
    rw [validate_of_parse_some s p mi ma hp, if_neg (by omega), if_pos hmi]
    decide
  · intro p mi ma hp h1 h2 h3 hma
    rw [validate_of_parse_some s p mi ma hp, if_neg (by omega),
      if_neg (by omega), if_pos hma]
    decide

/-- C5 witness: the acceptance direction at `50-10-20`, the format kind
at `1-2`, and the range kind at `101-0-5`, all concrete. -/
theorem validator_accept_and_error_kinds_witness :
    (validate_padding_format "50-10-20").1 = true
    ∧ verdictKind (validate_padding_format "1-2") = some .formatError
    ∧ verdictKind (validate_padding_format "101-0-5") = some .rangeError :=
  ⟨(validator_accept_and_error_kinds "50-10-20").1.mpr
      ⟨50, 10, 20, by decide, by decide, by decide, by decide, by decide⟩,
    (validator_accept_and_error_kinds "1-2").2.1 (by decide),
    (validator_accept_and_error_kinds "101-0-5").2.2.1 101 0 5 (by decide)
      (Or.inr (by decide))⟩

/-! ### Claim C10 -/

/-- C10: the validator is a total function: on every input string it
returns a verdict pair, either acceptance `(true, "")` or a rejection
carrying one of the five in-code failure messages — no input reaches an
uncaught error. -/
theorem validator_total_classified :
    ∀ s : String,
      validate_padding_format s = (true, "")
      ∨ ((validate_padding_format s).1 = false
        ∧ ((validate_padding_format s).2 = fmtMsg
          ∨ (validate_padding_format s).2 = intMsg
          ∨ (validate_padding_format s).2 = probMsg
          ∨ (validate_padding_format s).2 = minMsg
          ∨ (validate_padding_format s).2 = maxMsg)) := by
  intro s
  rcases hp : parseTriplet s with _ | ⟨⟨p, mi, ma⟩⟩
  · rcases validate_of_parse_none s hp with hv | hv <;> rw [hv] <;> simp
  · rw [validate_of_parse_some s p mi ma hp]
    split_ifs <;> simp

/-! ### Helper lemmas about the first-padding acceptance test -/

/-- If the first padding starts with the literal `100-`, its parsed
probability field is 100. -/
theorem parse_prob_of_begins100 (s : String) (p mi ma : Int)
    (hp : parseTriplet s = some (p, mi, ma)) (hb : begins100 s = true) :
    p = 100 := by
  rcases hd : s.data with _ | ⟨c1, _ | ⟨c2, _ | ⟨c3, _ | ⟨c4, rest⟩⟩⟩⟩ <;>
    simp only [begins100, hd, Bool.and_eq_true, beq_iff_eq] at hb <;>
    try exact Bool.noConfusion hb
  obtain ⟨⟨⟨h1, h2⟩, h3⟩, h4⟩ := hb
  subst h1; subst h2; subst h3; subst h4
  have hs : splitDash s.data = ['1', '0', '0'] :: splitDash rest := by
    rw [hd]; exact rfl
  have h100 : pyIntChars ['1', '0', '0'] = some 100 := by decide
  simp only [parseTriplet, hs] at hp
  rcases hr : splitDash rest with _ | ⟨b, _ | ⟨c, _ | ⟨d, l⟩⟩⟩ <;>
    simp only [hr, h100] at hp <;> try exact Option.noConfusion hp
  rcases hb2 : pyIntChars b with _ | mi' <;> rcases hc2 : pyIntChars c with _ | ma' <;>
    simp only [hb2, hc2, Option.some.injEq, Prod.mk.injEq] at hp <;>
    try exact Option.noConfusion hp
  exact hp.1.symm

/-- If the `int(parts[1]) >= 35` test passes, the parsed minimum field
is at least 35. -/
theorem parse_min_of_minOk35 (s : String) (p mi ma : Int)
    (hp : parseTriplet s = some (p, mi, ma)) (hm : minOk35 s = true) :
    35 ≤ mi := by
  rcases hsp : splitDash s.data with _ | ⟨a, _ | ⟨b, _ | ⟨c, _ | ⟨d, l⟩⟩⟩⟩ <;>
    simp only [parseTriplet, hsp] at hp <;> try exact Option.noConfusion hp
  simp only [minOk35, hsp] at hm
  rcases ha : pyIntChars a with _ | p' <;> rcases hb : pyIntChars b with _ | mi' <;>
    rcases hc : pyIntChars c with _ | ma' <;>
    simp only [ha, hb, hc, Option.some.injEq, Prod.mk.injEq] at hp <;>
    try exact Option.noConfusion hp
  obtain ⟨rfl, rfl, rfl⟩ := hp
  simp only [ha, hb, hc] at hm
  exact of_decide_eq_true hm

/-! ### Claim C4 -/

/-- C4 (counterexample to the claim as stated): the input `0100-40-50`
passes the Validator, its probability field parses to 100 and its
minimum is 40 ≥ 35, yet the first-padding loop rejects it, because the
source tests the literal prefix `100-` rather than the parsed
probability. -/
theorem first_padding_claim_counterexample :
    ¬ (first_padding_ok "0100-40-50" = true ↔
      ((validate_padding_format (pyStrip "0100-40-50")).1 = true
        ∧ probOf (pyStrip "0100-40-50") = some 100
        ∧ ∃ m, minOf (pyStrip "0100-40-50") = some m ∧ 35 ≤ m)) := by
  intro h
  have hmpr := h.mpr ⟨by decide, by decide, 40, by decide, by decide⟩
  have hfalse : first_padding_ok "0100-40-50" = false := by decide
  rw [hfalse] at hmpr
  exact Bool.noConfusion hmpr

/-- C4 (amended): the first-padding loop accepts an input exactly when,
after stripping, it is nonempty, passes the Validator, begins with the
literal prefix `100-`, and has minimum at least 35; consequently every
accepted first block has parsed probability exactly 100 and minimum at
least 35 (the prefix test is strictly stronger than probability = 100:
inputs such as `0100-40-50` with probability 100 are rejected). -/
theorem first_padding_acceptance :
    ∀ s : String,
      (first_padding_ok s = true ↔
        (pyStrip s ≠ "" ∧ validB (pyStrip s) = true
          ∧ begins100 (pyStrip s) = true ∧ minOk35 (pyStrip s) = true))
      ∧ (first_padding_ok s = true →
          probOf (pyStrip s) = some 100
          ∧ ∃ m, minOf (pyStrip s) = some m ∧ 35 ≤ m) := by
  intro s
  have hiff : first_padding_ok s = true ↔
      (pyStrip s ≠ "" ∧ validB (pyStrip s) = true
        ∧ begins100 (pyStrip s) = true ∧ minOk35 (pyStrip s) = true) := by
    simp [first_padding_ok, Bool.and_eq_true, and_assoc]
  refine ⟨hiff, fun h => ?_⟩
  obtain ⟨hne, hv, hb, hm⟩ := hiff.mp h
  obtain ⟨p, mi, ma, hp, _, _, _, _⟩ := (validB_iff _).mp hv
  have hp100 := parse_prob_of_begins100 _ p mi ma hp hb
  have hmin := parse_min_of_minOk35 _ p mi ma hp hm
  subst hp100
  exact ⟨by simp [probOf, hp], mi, by simp [minOf, hp], hmin⟩

/-- C4 witness: the accepted concrete first padding `100-40-50` has
probability 100 and minimum 40 ≥ 35. -/
theorem first_padding_acceptance_witness :
    probOf (pyStrip "100-40-50") = some 100
    ∧ ∃ m, minOf (pyStrip "100-40-50") = some m ∧ 35 ≤ m :=
  (first_padding_acceptance "100-40-50").2 (by decide)

/-! ### Helper lemmas about the builder -/

/-- Appending a kind different from the current last one preserves
alternation. -/
theorem altKinds_concat (ks : List BKind) (k x : BKind)
    (h : altKinds ks = true) (hl : ks.getLast? = some k) (hne : k ≠ x) :
    altKinds (ks ++ [x]) = true := by
  induction ks with
  | nil => simp at hl
  | cons a t ih =>
    cases t with
    | nil =>
      have ha : a = k := by simpa using hl
      subst ha
      simp [altKinds, hne]
    | cons b t2 =>
      rw [List.getLast?_cons_cons] at hl
      simp only [altKinds, Bool.and_eq_true] at h
      obtain ⟨hab, ht⟩ := h
      have hrec := ih ht hl
      simp only [List.cons_append] at hrec ⊢
      simp [altKinds, hab]
      simpa using hrec

/-- Appending a block of a different kind preserves the chain shape and
moves the last kind. -/
theorem chainShape_concat (ks : List BKind) (k x : BKind)
    (h : chainShape ks k) (hne : k ≠ x) : chainShape (ks ++ [x]) x := by
  obtain ⟨h1, h2, h3⟩ := h
  refine ⟨?_, altKinds_concat ks k x h2 h3 hne, by simp [List.getLast?_concat]⟩
  cases ks with
  | nil => simp at h1
  | cons a t =>
    simp only [List.head?_cons] at h1
    simp [h1]

/-- Kinds of an extended chain. -/
theorem kindsOf_concat (blocks : List Block) (k : BKind) (t : String) :
    kindsOf (blocks ++ [(k, t)]) = kindsOf blocks ++ [k] := by
  simp [kindsOf]

/-- One builder step preserves the phase invariant. -/
theorem builderStep_inv (st : BState) (raw : String) (h : builderInv st) :
    builderInv (builderStep st raw) := by
  rcases st with ⟨phase, blocks⟩
  cases phase
  case first =>
    by_cases hok : first_padding_ok raw = true
    · simp only [builderStep, hok, if_true]
      simp only [builderInv] at h ⊢
      subst h
      simp [chainShape, kindsOf, altKinds]
    · simpa only [builderStep, hok, if_false, Bool.false_eq_true] using h
  case choiceAfterPadding =>
    simp only [builderStep]
    split
    · simpa only [builderInv] using ⟨h.1, h.2.1⟩
    · split
      · simpa only [builderInv] using h
      · exact h
  case choiceAfterDelay =>
    simp only [builderStep]
    split
    · simpa only [builderInv] using ⟨h.1, h.2.1⟩
    · split
      · simpa only [builderInv] using h
      · exact h
  case delayBlock =>
    by_cases hok : block_ok raw = true
    · simp only [builderStep, hok, if_true]
      simp only [builderInv, kindsOf_concat] at h ⊢
      exact chainShape_concat _ .padding .delay h (by decide)
    · simpa only [builderStep, hok, if_false, Bool.false_eq_true] using h
  case paddingBlock =>
    by_cases hok : block_ok raw = true
    · simp only [builderStep, hok, if_true]
      simp only [builderInv, kindsOf_concat] at h ⊢
      exact chainShape_concat _ .delay .padding h (by decide)
    · simpa only [builderStep, hok, if_false, Bool.false_eq_true] using h
  case done => exact h

/-- The invariant holds after any run of the builder. -/
theorem runBuilder_inv (inputs : List String) (st : BState)
    (h : builderInv st) : builderInv (inputs.foldl builderStep st) := by
  induction inputs generalizing st with
  | nil => exact h
  | cons a t ih => exact ih _ (builderStep_inv st a h)

/-! ### Claim C3 -/

/-- C3: every padding chain emitted by the interactive builder is
non-empty, its first block has kind Padding, no two consecutive blocks
share a kind, for chains of every length — and the chain serializes to
the dot-join of its blocks' `probability-min-max` strings in sequence
order. -/
theorem builder_chain_invariants :
    ∀ (inputs : List String) (blocks : List Block),
      configure_padding inputs = some blocks →
      blocks ≠ []
      ∧ (kindsOf blocks).head? = some BKind.padding
      ∧ altKinds (kindsOf blocks) = true
      ∧ serializeChain blocks = pyJoinDot (blocks.map Prod.snd) := by
  intro inputs blocks h
  have hinv := runBuilder_inv inputs ⟨.first, []⟩ (by simp [builderInv])
  unfold configure_padding at h
  rcases hst : runBuilder inputs with ⟨ph, bl⟩
  rw [hst] at h
  have hst2 : List.foldl builderStep ⟨BPhase.first, []⟩ inputs = BState.mk ph bl := hst
  rw [hst2] at hinv
  cases ph <;> simp only at h <;> try exact Option.noConfusion h
  case done =>
    obtain rfl : bl = blocks := by simpa using h
    simp only [builderInv] at hinv
    obtain ⟨h1, h2⟩ := hinv
    refine ⟨?_, h1, h2, rfl⟩
    intro hnil
    subst hnil
    simp [kindsOf] at h1

/-- C3 witness: the concrete session `100-40-50`, add delay, `75-0-111`,
finish, yields a two-block chain satisfying all the invariants. -/
theorem builder_chain_invariants_witness :
    configure_padding ["100-40-50", "1", "75-0-111", "2"] =
      some [(BKind.padding, "100-40-50"), (BKind.delay, "75-0-111")]
    ∧ ([(BKind.padding, "100-40-50"), (BKind.delay, "75-0-111")] ≠
        ([] : List Block)
      ∧ (kindsOf [(BKind.padding, "100-40-50"), (BKind.delay, "75-0-111")]).head?
          = some BKind.padding
      ∧ altKinds (kindsOf [(BKind.padding, "100-40-50"), (BKind.delay, "75-0-111")])
          = true
      ∧ serializeChain [(BKind.padding, "100-40-50"), (BKind.delay, "75-0-111")]
          = pyJoinDot ([(BKind.padding, "100-40-50"),
              (BKind.delay, "75-0-111")].map Prod.snd)) :=
  ⟨by decide,
    builder_chain_invariants ["100-40-50", "1", "75-0-111", "2"]
      [(BKind.padding, "100-40-50"), (BKind.delay, "75-0-111")] (by decide)⟩

/-! ### Claim C7 -/

/-- C7: any non-affirmative answer at the final confirmation prompt
(anything other than `y`/`yes` after stripping and lowercasing) aborts
the installation: the deployment record is discarded and no
configuration is written; an affirmative answer lets the record through
and the listener configuration is written from it. -/
theorem confirmation_abort :
    ∀ (cfg : DeployConfig) (answer : String),
      (affirmative answer = false →
        confirmStep cfg answer = none ∧ writtenConfig cfg answer = none)
      ∧ (affirmative answer = true →
        confirmStep cfg answer = some cfg
        ∧ writtenConfig cfg answer = some (generate_config cfg)) := by
  intro cfg answer
  constructor <;> intro h <;> simp [confirmStep, writtenConfig, h]

/-- C7 witness: the answer `n` aborts a concrete deployment record and
writes nothing; the answer ` Y ` (stripped, lowercased) proceeds. -/
theorem confirmation_abort_witness :
    (confirmStep (mkDeploymentConfig "xorpub" "0s" "1rtt" defaultPadding
        "PK" "PW" "SD" "CK" 443 "abc-123") "n" = none
      ∧ writtenConfig (mkDeploymentConfig "xorpub" "0s" "1rtt" defaultPadding
        "PK" "PW" "SD" "CK" 443 "abc-123") "n" = none)
    ∧ confirmStep (mkDeploymentConfig "xorpub" "0s" "1rtt" defaultPadding
        "PK" "PW" "SD" "CK" 443 "abc-123") " Y "
      = some (mkDeploymentConfig "xorpub" "0s" "1rtt" defaultPadding
        "PK" "PW" "SD" "CK" 443 "abc-123") :=
  ⟨(confirmation_abort (mkDeploymentConfig "xorpub" "0s" "1rtt" defaultPadding
      "PK" "PW" "SD" "CK" 443 "abc-123") "n").1 (by decide),
    ((confirmation_abort (mkDeploymentConfig "xorpub" "0s" "1rtt" defaultPadding
      "PK" "PW" "SD" "CK" 443 "abc-123") " Y ").2 (by decide)).1⟩

/-! ### Helper lemma about the port scan -/

/-- A successful random scan returns one of its draws, hence a port in
the draw range. -/
theorem random_free_port_range (isFree : Int → Bool) (draws : List Int)
    (hd : ∀ d ∈ draws, 20000 ≤ d ∧ d ≤ 60000) (q : Int)
    (h : random_free_port isFree draws = some q) :
    20000 ≤ q ∧ q ≤ 60000 := by
  induction draws with
  | nil => exact Option.noConfusion h
  | cons d ds ih =>
    simp only [random_free_port] at h
    by_cases hf : isFree d = true
    · rw [if_pos hf] at h
      obtain rfl : d = q := Option.some.inj h
      exact hd d (List.mem_cons_self d ds)
    · rw [if_neg hf] at h
      exact ih (fun x hx => hd x (List.mem_cons_of_mem d hx)) h

/-! ### Claim C8 -/

/-- Case characterisation of `get_port_input`: the user's parsed value
when in range, otherwise the random scan. -/
theorem get_port_input_eq (inp : String) (isFree : Int → Bool)
    (draws : List Int) :
    get_port_input inp isFree draws =
      match pyIntChars (pyStrip inp).data with
      | some p =>
        if p < 1 ∨ 65535 < p then random_free_port isFree draws else some p
      | none => random_free_port isFree draws := by
  by_cases hE : pyStrip inp = ""
  · have hn : pyIntChars (pyStrip inp).data = none := by rw [hE]; rfl
    rw [hn]
    simp [get_port_input, hE]
  · simp [get_port_input, hE]

/-- C8: port selection returns the user's value whenever it parses as an
integer in `[1, 65535]`; a blank, unparsable, or out-of-range input
silently falls back to the random free-port scan, whose draws come from
`[20000, 60000]`; hence any returned port lies in `[1, 65535]`. -/
theorem port_selection_spec :
    ∀ (inp : String) (isFree : Int → Bool) (draws : List Int),
      (∀ d ∈ draws, 20000 ≤ d ∧ d ≤ 60000) →
      (∀ q, get_port_input inp isFree draws = some q → 1 ≤ q ∧ q ≤ 65535)
      ∧ (∀ p, pyIntChars (pyStrip inp).data = some p → 1 ≤ p → p ≤ 65535 →
          get_port_input inp isFree draws = some p)
      ∧ ((pyStrip inp = "" ∨ pyIntChars (pyStrip inp).data = none
          ∨ (∃ p, pyIntChars (pyStrip inp).data = some p ∧ (p < 1 ∨ 65535 < p))) →
          get_port_input inp isFree draws = random_free_port isFree draws)
      ∧ (∀ q, random_free_port isFree draws = some q →
          20000 ≤ q ∧ q ≤ 60000) := by
  intro inp isFree draws hdraws
  refine ⟨?_, ?_, ?_, fun q hq => random_free_port_range isFree draws hdraws q hq⟩
  · intro q hq
    rw [get_port_input_eq] at hq
    rcases hp : pyIntChars (pyStrip inp).data with _ | p <;> simp only [hp] at hq
    · have := random_free_port_range isFree draws hdraws q hq
      omega
    · by_cases hr : p < 1 ∨ 65535 < p
      · rw [if_pos hr] at hq
        have := random_free_port_range isFree draws hdraws q hq
        omega
      · rw [if_neg hr] at hq
        obtain rfl : p = q := Option.some.inj hq
        omega
  · intro p hp h1 h2
    rw [get_port_input_eq]
    simp only [hp]
    rw [if_neg (by omega)]
  · intro hcase
    rw [get_port_input_eq]
    rcases hcase with hc | hc | ⟨p, hp, hr⟩
    · rw [hc]
      exact rfl
    · simp only [hc]
    · simp only [hp]
      rw [if_pos hr]

/-- C8 witness: the explicit input `443` is returned as given; a blank
input falls back to the scan, and a successful scan result 23456 is in
the scan range. -/
theorem port_selection_spec_witness :
    get_port_input "443" (fun _ => true) [] = some 443
    ∧ get_port_input "" (fun _ => true) [23456]
        = random_free_port (fun _ => true) [23456]
    ∧ (20000 ≤ (23456 : Int) ∧ (23456 : Int) ≤ 60000) :=
  ⟨(port_selection_spec "443" (fun _ => true) [] (by simp)).2.1 443
      (by decide) (by decide) (by decide),
    (port_selection_spec "" (fun _ => true) [23456]
      (by decide)).2.2.1 (Or.inl (by decide)),
    (port_selection_spec "" (fun _ => true) [23456] (by decide)).2.2.2 23456
      (by rfl)⟩

/-! ### Helper lemmas about the key-output scanner -/

/-- A line not containing the first label leaves the first slot alone. -/
theorem scanStep_fst_of_not_matchA (labA labB : List Char)
    (st : Option (List Char) × Option (List Char)) (line : List Char)
    (h : containsSub labA line = false) :
    (scanStep labA labB st line).1 = st.1 := by
  simp only [scanStep, h, Bool.false_eq_true, if_false]
  split_ifs <;> rfl

/-- A run over lines none of which contain the first label leaves the
first slot alone. -/
theorem foldl_fst_of_no_matchA (labA labB : List Char)
    (ls : List (List Char)) (st : Option (List Char) × Option (List Char))
    (h : ∀ l ∈ ls, containsSub labA l = false) :
    (ls.foldl (scanStep labA labB) st).1 = st.1 := by
  induction ls generalizing st with
  | nil => rfl
  | cons a t ih =>
    rw [List.foldl_cons]
    rw [ih _ (fun l hl => h l (List.mem_cons_of_mem a hl))]
    exact scanStep_fst_of_not_matchA labA labB st a (h a (List.mem_cons_self a t))

/-- A line containing the first label, or not containing the second,
leaves the second slot alone (the `elif` gives the first label
priority). -/
theorem scanStep_snd_pres (labA labB : List Char)
    (st : Option (List Char) × Option (List Char)) (line : List Char)
    (h : containsSub labA line = true ∨ containsSub labB line = false) :
    (scanStep labA labB st line).2 = st.2 := by
  rcases h with h | h
  · simp [scanStep, h]
  · simp only [scanStep, h, Bool.false_eq_true, if_false]
    split_ifs <;> rfl

/-- A run over lines each of which either contains the first label or
not the second leaves the second slot alone. -/
theorem foldl_snd_pres (labA labB : List Char)
    (ls : List (List Char)) (st : Option (List Char) × Option (List Char))
    (h : ∀ l ∈ ls, containsSub labA l = true ∨ containsSub labB l = false) :
    (ls.foldl (scanStep labA labB) st).2 = st.2 := by
  induction ls generalizing st with
  | nil => rfl
  | cons a t ih =>
    rw [List.foldl_cons]
    rw [ih _ (fun l hl => h l (List.mem_cons_of_mem a hl))]
    exact scanStep_snd_pres labA labB st a (h a (List.mem_cons_self a t))

/-- The first slot retains the value of the last line containing the
first label. -/
theorem scanPair_fst_last (labA labB : List Char)
    (ls1 ls2 : List (List Char)) (l : List Char)
    (hl : containsSub labA l = true)
    (h2 : ∀ l' ∈ ls2, containsSub labA l' = false) :
    (scanPair labA labB (ls1 ++ l :: ls2)).1 =
      some (pyStripChars (afterFirstColon l)) := by
  unfold scanPair
  rw [List.foldl_append, List.foldl_cons]
  rw [foldl_fst_of_no_matchA labA labB ls2 _ h2]
  simp [scanStep, hl]

/-- The second slot retains the value of the last line containing the
second label but not the first. -/
theorem scanPair_snd_last (labA labB : List Char)
    (ls1 ls2 : List (List Char)) (l : List Char)
    (hB : containsSub labB l = true) (hA : containsSub labA l = false)
    (h2 : ∀ l' ∈ ls2, containsSub labA l' = true ∨ containsSub labB l' = false) :
    (scanPair labA labB (ls1 ++ l :: ls2)).2 =
      some (pyStripChars (afterFirstColon l)) := by
  unfold scanPair
  rw [List.foldl_append, List.foldl_cons]
  rw [foldl_snd_pres labA labB ls2 _ h2]
  simp [scanStep, hA, hB]

/-- Substring membership is position-independent: a match anywhere
survives prepending. -/
theorem containsSub_append_left (pat : List Char) (junk s : List Char)
    (h : containsSub pat s = true) : containsSub pat (junk ++ s) = true := by
  induction junk with
  | nil => exact h
  | cons c t ih =>
    simp only [List.cons_append, containsSub, Bool.or_eq_true]
    exact Or.inr ih

/-- An empty or missing first value makes the whole parse fail. -/
theorem parsePair_none_fst (labA labB : List Char) (lines : List (List Char))
    (h : (scanPair labA labB lines).1 = some []
      ∨ (scanPair labA labB lines).1 = none) :
    parsePair labA labB lines = none := by
  unfold parsePair
  rcases hsc : scanPair labA labB lines with ⟨a?, b?⟩
  rw [hsc] at h
  rcases a? with _ | a
  · rcases b? with _ | b <;> rfl
  · simp only at h
    rcases h with h | h
    · obtain rfl : a = [] := by simpa using h
      rcases b? with _ | b
      · rfl
      · simp
    · exact Option.noConfusion h

/-- An empty or missing second value makes the whole parse fail. -/
theorem parsePair_none_snd (labA labB : List Char) (lines : List (List Char))
    (h : (scanPair labA labB lines).2 = some []
      ∨ (scanPair labA labB lines).2 = none) :
    parsePair labA labB lines = none := by
  unfold parsePair
  rcases hsc : scanPair labA labB lines with ⟨a?, b?⟩
  rw [hsc] at h
  rcases b? with _ | b
  · rcases a? with _ | a <;> rfl
  · simp only at h
    rcases h with h | h
    · obtain rfl : b = [] := by simpa using h
      rcases a? with _ | a
      · rfl
      · simp
    · exact Option.noConfusion h

/-! ### Claim C9 -/

/-- C9 (counterexample to the claim as stated): on the output lines
`Password: A` and `x PrivateKey: p Password: B`, the label `Password:`
occurs last on the second line, but the retained password is `A` from
the first line — the `elif` gives `PrivateKey:` priority, so a line
containing both labels never updates the password slot.  "Last matching
line" therefore fails for the second label. -/
theorem keypair_lastline_counterexample :
    ¬ ((scanPair "PrivateKey:".data "Password:".data
          ["Password: A".data, "x PrivateKey: p Password: B".data]).1
        = lastValueFor "PrivateKey:".data
            ["Password: A".data, "x PrivateKey: p Password: B".data]
      ∧ (scanPair "PrivateKey:".data "Password:".data
          ["Password: A".data, "x PrivateKey: p Password: B".data]).2
        = lastValueFor "Password:".data
            ["Password: A".data, "x PrivateKey: p Password: B".data]) := by
  intro h
  exact absurd h.2 (by decide)

/-- C9 (amended): in the key-pair output scanners a label is recognised
by substring match anywhere in a line; the first slot retains the value
(text after the line's first colon, stripped) of the last line
containing the first label, while the second slot retains the value of
the last line containing the second label but not the first (the `elif`
gives the first label priority); and a slot left missing or holding the
empty value makes the parse fail — exactly the cases in which the
source exits fatally.  Both generators instantiate the same scanner
with their label pairs. -/
theorem keypair_parsing_label_rules :
    ∀ labA labB : List Char,
      (∀ junk line : List Char, containsSub labA line = true →
        containsSub labA (junk ++ line) = true)
      ∧ (∀ (ls1 ls2 : List (List Char)) (l : List Char),
          containsSub labA l = true →
          (∀ l' ∈ ls2, containsSub labA l' = false) →
          (scanPair labA labB (ls1 ++ l :: ls2)).1 =
            some (pyStripChars (afterFirstColon l)))
      ∧ (∀ (ls1 ls2 : List (List Char)) (l : List Char),
          containsSub labB l = true → containsSub labA l = false →
          (∀ l' ∈ ls2,
            containsSub labA l' = true ∨ containsSub labB l' = false) →
          (scanPair labA labB (ls1 ++ l :: ls2)).2 =
            some (pyStripChars (afterFirstColon l)))
      ∧ (∀ lines : List (List Char),
          (scanPair labA labB lines).1 = some []
            ∨ (scanPair labA labB lines).1 = none →
          parsePair labA labB lines = none)
      ∧ (∀ lines : List (List Char),
          (scanPair labA labB lines).2 = some []
            ∨ (scanPair labA labB lines).2 = none →
          parsePair labA labB lines = none)
      ∧ parseX25519 = parsePair "PrivateKey:".data "Password:".data
      ∧ parseMLKEM768 = parsePair "Seed:".data "Client:".data := by
  intro labA labB
  exact ⟨fun junk line h => containsSub_append_left labA junk line h,
    fun ls1 ls2 l hl h2 => scanPair_fst_last labA labB ls1 ls2 l hl h2,
    fun ls1 ls2 l hB hA h2 => scanPair_snd_last labA labB ls1 ls2 l hB hA h2,
    fun lines h => parsePair_none_fst labA labB lines h,
    fun lines h => parsePair_none_snd labA labB lines h,
    rfl, rfl⟩

/-- C9 witness: a mid-line label is recognised and parsed, and an empty
`PrivateKey:` value makes the whole parse fail. -/
theorem keypair_parsing_label_rules_witness :
    (scanPair "PrivateKey:".data "Password:".data
        ([] ++ "a PrivateKey: AAA".data :: [])).1
      = some (pyStripChars (afterFirstColon "a PrivateKey: AAA".data))
    ∧ parsePair "PrivateKey:".data "Password:".data ["PrivateKey:".data]
      = none :=
  ⟨(keypair_parsing_label_rules "PrivateKey:".data "Password:".data).2.1 [] []
      "a PrivateKey: AAA".data (by decide) (by simp),
    (keypair_parsing_label_rules "PrivateKey:".data "Password:".data).2.2.2.1
      ["PrivateKey:".data] (Or.inl (by decide))⟩
